import Mathlib

/-!
Verification of the multi-agent grid-world experiment pipeline:
environment synthesis (`ArtifactEnvironmentCreator`: `create_environment`,
`create_experiment_suite`, `validate_environment`) and result aggregation
(`ExperimentAnalyzer`: `_analyze_configuration`, `analyze_results`,
`generate_comparison_report`).

The Python dictionaries keyed by coordinate strings are embedded as
insertion-ordered association lists over `String` keys; the coordinate
strings themselves are modelled exactly: the script formats `i + 0.5` and
`float(i)` with f-strings, which for every index in the exactly
representable range renders as the decimal digits of `i` followed by
`".5"` respectively `".0"`.  Randomness (`random.randint`,
`random.shuffle`) is embedded as oracle data constrained by the library
contract (draws lie in the requested range, a shuffle is a permutation).
Python floats read from result files are embedded as rationals, and
fallible dictionary lookups (potential `KeyError`) return `Option`.
-/

/-! ### Decimal rendering of natural numbers (Python number formatting) -/

/-- Fuel-based decimal digit rendering (structural recursion so that it
evaluates inside the kernel). -/
def natStrAuxGo : Nat → Nat → List Char
  | 0, _ => []
  | fuel + 1, n =>
    if n < 10 then [Nat.digitChar n]
    else natStrAuxGo fuel (n / 10) ++ [Nat.digitChar (n % 10)]

/-- The decimal digit characters of `n`, most significant first, as Python
renders an integer (`0` renders as `"0"`). -/
def natStrAux (n : Nat) : List Char := natStrAuxGo (n + 1) n

/-- Decimal rendering of a natural number as a string. -/
def natStr (n : Nat) : String := ⟨natStrAux n⟩

/-- Python rendering of the float `n + 0.5` (exact for representable `n`). -/
def halfStr (n : Nat) : String := natStr n ++ ".5"

/-- Python rendering of the float `float(n)` (exact for representable `n`). -/
def wholeStr (n : Nat) : String := natStr n ++ ".0"

/-- Key of the agent square (cell center) `(i+0.5, j+0.5)`:
`f"{i+0.5}_{j+0.5}"` in the source. -/
def centerKey (i j : Nat) : String := halfStr i ++ "_" ++ halfStr j

/-- Key of the corner `(i, j)`: `f"{float(i)}_{float(j)}"` in the source. -/
def cornerKey (i j : Nat) : String := wholeStr i ++ "_" ++ wholeStr j

/-! ### Injectivity of the grid keys as strings -/

/-- The characters of one rendered coordinate: digits of `n`, then `'.'`,
then the fractional digit (`'5'` for a center, `'0'` for a corner). -/
def coordChars (n : Nat) (frac : Char) : List Char := natStrAux n ++ ['.', frac]

/-- The characters of one full grid key. -/
def keyChars (a : Nat) (fa : Char) (b : Nat) (fb : Char) : List Char :=
  coordChars a fa ++ '_' :: coordChars b fb

/-! ### The grid dictionary (Python `pg_dict`) -/

/-- The grid dictionary: a Python `dict` mapping coordinate strings to
lists of item labels, embedded as an insertion-ordered association list
(faithful because the generated keys are pairwise distinct; see
`initGrid_keys_nodup`). -/
abbrev PgDict := List (String × List String)

/-- Python dictionary lookup `pg_dict[k]`; `none` models a `KeyError`. -/
def findVal : PgDict → String → Option (List String)
  | [], _ => none
  | (k', v) :: rest, k => if k' = k then some v else findVal rest k

/-- Python `pg_dict[k].append(x)` for a key already present. -/
def appendAt : PgDict → String → String → PgDict
  | [], _, _ => []
  | (k', v) :: rest, k, x =>
    if k' = k then (k', v ++ [x]) :: rest else (k', v) :: appendAt rest k x

/-- The dictionary's key list, in insertion order. -/
def keysOf (d : PgDict) : List String := d.map Prod.fst

/-! ### Item labels and prefix counting -/

/-- Python `str.startswith`. -/
def strStartsWith (s p : String) : Bool := p.data.isPrefixOf s.data

/-- All item labels stored in the environment, in dictionary order. -/
def itemList (d : PgDict) : List String := d.flatMap Prod.snd

/-- Number of labels starting with `"artifact_"`. -/
def artifact_count (d : PgDict) : Nat :=
  (itemList d).countP (fun s => strStartsWith s "artifact_")

/-- Number of labels starting with `"target_"`. -/
def target_count (d : PgDict) : Nat :=
  (itemList d).countP (fun s => strStartsWith s "target_")

/-! ### Environment Synthesizer (`create_environment`) -/

/-- The fixed color palette (`self.colors`). -/
def colors : List String := ["blue", "red", "green", "purple", "orange"]

/-- The four candidate corner offsets, in source order:
`corner_options = [(1.0, 0.0), (0.0, 0.0), (0.0, 1.0), (1.0, 1.0)]`. -/
def corner_options : List (Nat × Nat) := [(1, 0), (0, 0), (0, 1), (1, 1)]

/-- One unit's random draws: the two `random.randint` cell indices and the
`random.shuffle`d visiting order of `corner_options`. -/
structure UnitDraw where
  artifact_square : Nat
  target_square : Nat
  corners : List (Nat × Nat)
deriving DecidableEq

/-- The `random` library contract for one unit's draws: both `randint`
results lie in `[0, rows*cols)` and the shuffle is a permutation. -/
def UnitDraw.Valid (rows cols : Nat) (u : UnitDraw) : Prop :=
  u.artifact_square < rows * cols ∧ u.target_square < rows * cols ∧
    u.corners.Perm corner_options

instance (rows cols : Nat) (u : UnitDraw) : Decidable (u.Valid rows cols) := by
  unfold UnitDraw.Valid; infer_instance

/-- The `random` library contract for a whole `create_environment` call:
one unit-draw list per color, whose length is the
`randint(artifact_num_low, artifact_num_high)` multiplicity draw. -/
def DrawsValid (rows cols low high : Nat) (draws : List (List UnitDraw)) : Prop :=
  draws.length = colors.length ∧
    ∀ us ∈ draws, low ≤ us.length ∧ us.length ≤ high ∧ ∀ u ∈ us, u.Valid rows cols

instance (rows cols low high : Nat) (draws : List (List UnitDraw)) :
    Decidable (DrawsValid rows cols low high draws) := by
  unfold DrawsValid; infer_instance

/-- Grid initialization: agent squares (cell centers) in row-major loop
order, then corner positions in row-major loop order; every key maps to
an empty list. -/
def initGrid (rows cols : Nat) : PgDict :=
  ((List.range rows).flatMap fun i =>
      (List.range cols).map fun j => (centerKey i j, ([] : List String)))
    ++ ((List.range (rows + 1)).flatMap fun i =>
        (List.range (cols + 1)).map fun j => (cornerKey i j, ([] : List String)))

/-- The `for random_x, random_y in corner_options` loop: visit the (already
shuffled) corner candidates in order, and at the first one whose list is
empty append the artifact label there and the target label at the target
cell's center key, then break; `none` models a `KeyError`. -/
def tryPlace (d : PgDict) (corners : List (Nat × Nat)) (aA bA aT bT : Nat)
    (color : String) : Option PgDict :=
  match corners with
  | [] => some d
  | c :: rest =>
    match findVal d (cornerKey (aA + c.1) (bA + c.2)) with
    | none => none
    | some items =>
      if items.length = 0 then
        match findVal d (centerKey aT bT) with
        | none => none
        | some _ =>
          some (appendAt
            (appendAt d (cornerKey (aA + c.1) (bA + c.2)) ("artifact_" ++ color))
            (centerKey aT bT) ("target_" ++ color))
      else tryPlace d rest aA bA aT bT color

/-- One iteration of `for _ in range(artifact_num)`: decompose the drawn
cell indices by `// cols` and `% cols` and attempt the placement. -/
def placeUnit (cols : Nat) (color : String) (d : PgDict) (u : UnitDraw) : Option PgDict :=
  tryPlace d u.corners (u.artifact_square / cols) (u.artifact_square % cols)
    (u.target_square / cols) (u.target_square % cols) color

/-- All placements for one color. -/
def placeUnits (cols : Nat) (color : String) : PgDict → List UnitDraw → Option PgDict
  | d, [] => some d
  | d, u :: us =>
    match placeUnit cols color d u with
    | none => none
    | some d' => placeUnits cols color d' us

/-- The outer `for color in self.colors` loop. -/
def placeColors (cols : Nat) : PgDict → List (String × List UnitDraw) → Option PgDict
  | d, [] => some d
  | d, cu :: rest =>
    match placeUnits cols cu.1 d cu.2 with
    | none => none
    | some d' => placeColors cols d' rest

/-- The synthesizer `create_environment(pg_row_num, pg_column_num, artifact_num_low,
artifact_num_high)`.  `artifact_num_low`/`artifact_num_high` are the
bounds handed to `random.randint` (default `1, 1` at the call site in
`create_experiment_suite`); the randomness is the `draws` oracle, whose
conformance to those bounds is `DrawsValid`. -/
def create_environment (pg_row_num pg_column_num artifact_num_low artifact_num_high : Nat)
    (draws : List (List UnitDraw)) : Option PgDict :=
  placeColors pg_column_num (initGrid pg_row_num pg_column_num) (colors.zip draws)

/-! ### Environment Validator (`validate_environment`) -/

/-- The validator `validate_environment`: scan every position's item list, counting
labels by prefix with the source's `if`/`elif`, and require
`artifact_count == target_count and artifact_count > 0`. -/
def validate_environment (environment : PgDict) : Bool :=
  let counts := environment.foldl
    (fun (acc : Nat × Nat) kv =>
      kv.2.foldl
        (fun (acc : Nat × Nat) item =>
          if strStartsWith item "artifact_" then (acc.1 + 1, acc.2)
          else if strStartsWith item "target_" then (acc.1, acc.2 + 1)
          else acc)
        acc)
    (0, 0)
  decide (counts.1 = counts.2) && decide (0 < counts.1)

/-! ### Soundness of the placement loop -/

/-- Invariant: all keys the placement loop can touch are present. -/
def GoodGrid (rows cols : Nat) (d : PgDict) : Prop :=
  (∀ i ≤ rows, ∀ j ≤ cols, cornerKey i j ∈ keysOf d) ∧
    (∀ i < rows, ∀ j < cols, centerKey i j ∈ keysOf d)

/-! ### Result Aggregator (`ExperimentAnalyzer`) -/

/-- Contents of one `<framework><dialogue_method>` result directory:
`statusLine` is the stripped first line of `success_failure.txt` when that
file exists, `actionTime` the parsed first line of `env_action_times.txt`,
`tokens` the parsed lines of `token_num_count.txt`; `none` models a
missing file. -/
structure RunData where
  statusLine : Option String
  actionTime : Option ℚ
  tokens : Option (List ℚ)
deriving DecidableEq

/-- Abstract filesystem: maps a result-directory path to its contents;
`none` models a directory that does not exist (`os.path.exists` false). -/
abbrev FS := String → Option RunData

/-- The path `result_path = os.path.join(self.data_dir,
f'env_pg_state_{pg_row_num}_{pg_column_num}', f'pg_state{iteration}',
f'{framework}{dialogue_method}')`. -/
def resultPath (data_dir : String) (pg_row_num pg_column_num iteration : Nat)
    (framework dialogue_method : String) : String :=
  data_dir ++ "/env_pg_state_" ++ natStr pg_row_num ++ "_" ++ natStr pg_column_num
    ++ "/pg_state" ++ natStr iteration ++ "/" ++ framework ++ dialogue_method

/-- The five accumulators of `_analyze_configuration`. -/
structure AggAcc where
  success_count : Nat
  total_action_time : ℚ
  total_token_usage : ℚ
  total_api_queries : Nat
  valid_experiments : Nat
deriving DecidableEq

/-- One iteration of the `for iteration in range(10)` loop: skip a
missing directory; if the status file exists read its first line; on
`'success'` bump `success_count` and accumulate the optional action-time
and token files; finally (whenever the status file existed) bump
`valid_experiments`. -/
def stepIteration (acc : AggAcc) (entry : Option RunData) : AggAcc :=
  match entry with
  | none => acc
  | some rd =>
    match rd.statusLine with
    | none => acc
    | some status =>
      let acc1 :=
        if status = "success" then
          let acc0 : AggAcc := { acc with success_count := acc.success_count + 1 }
          let accA : AggAcc :=
            match rd.actionTime with
            | some t => { acc0 with total_action_time := acc0.total_action_time + t }
            | none => acc0
          match rd.tokens with
          | some ts =>
            { accA with
              total_token_usage := accA.total_token_usage + ts.sum,
              total_api_queries := accA.total_api_queries + ts.length }
          | none => accA
        else acc
      { acc1 with valid_experiments := acc1.valid_experiments + 1 }

/-- The per-configuration aggregate statistics record. -/
structure AggStats where
  success_rate : ℚ
  avg_action_time : ℚ
  avg_token_usage : ℚ
  avg_api_queries : ℚ
  total_experiments : Nat
deriving DecidableEq

/-- The analyzer `_analyze_configuration`: scan iterations `0..9` and divide by
`max(·, 1)` denominators. -/
def _analyze_configuration (fs : FS) (data_dir : String)
    (pg_row_num pg_column_num : Nat) (framework dialogue_method : String) : AggStats :=
  let acc := (List.range 10).foldl
    (fun acc iteration =>
      stepIteration acc
        (fs (resultPath data_dir pg_row_num pg_column_num iteration framework dialogue_method)))
    ⟨0, 0, 0, 0, 0⟩
  { success_rate := (acc.success_count : ℚ) / ((max acc.valid_experiments 1 : Nat) : ℚ),
    avg_action_time := acc.total_action_time / ((max acc.success_count 1 : Nat) : ℚ),
    avg_token_usage := acc.total_token_usage / ((max acc.success_count 1 : Nat) : ℚ),
    avg_api_queries := (acc.total_api_queries : ℚ) / ((max acc.success_count 1 : Nat) : ℚ),
    total_experiments := acc.valid_experiments }

/-- The fixed configuration list (`self.candidate_list`). -/
def candidate_list : List (String × String) :=
  [("CMAS", "_wo_any_dialogue_history"),
   ("CMAS", "_w_only_state_action_history"),
   ("HMAS-2", "_wo_any_dialogue_history"),
   ("HMAS-2", "_w_only_state_action_history"),
   ("HMAS-2", "_w_all_dialogue_history"),
   ("HMAS-1", "_w_only_state_action_history")]

/-- The fixed grid sizes shared by both scripts. -/
def grid_sizes : List (Nat × Nat) := [(2, 2), (2, 4), (4, 4), (4, 8)]

/-- Per-grid analysis `_analyze_grid_size`: one aggregate per configuration, keyed by
`f"{framework}{dialogue_method}"`, in candidate-list order. -/
def _analyze_grid_size (fs : FS) (data_dir : String)
    (pg_row_num pg_column_num : Nat) : List (String × AggStats) :=
  candidate_list.map fun fd =>
    (fd.1 ++ fd.2, _analyze_configuration fs data_dir pg_row_num pg_column_num fd.1 fd.2)

/-- Top level `analyze_results`: one entry per grid size, keyed by
`f"{pg_row_num}x{pg_column_num}"`, in grid-size order. -/
def analyze_results (fs : FS) (data_dir : String) :
    List (String × List (String × AggStats)) :=
  grid_sizes.map fun rc =>
    (natStr rc.1 ++ "x" ++ natStr rc.2, _analyze_grid_size fs data_dir rc.1 rc.2)

/-- A filesystem with exactly one result directory, which exists but
holds no files at all. -/
def fsDirOnly : FS := fun p =>
  if p = resultPath "/data" 2 2 0 "CMAS" "_wo_any_dialogue_history"
  then some ⟨none, none, none⟩ else none

/-- The single-success scenario: one iteration whose status file's first
line is `success`, action-time file first line `5.0`, token file lines
`[10.0, 20.0]`. -/
def fsOneSuccess : FS := fun p =>
  if p = resultPath "/data" 2 2 0 "CMAS" "_wo_any_dialogue_history"
  then some ⟨some "success", some 5, some [10, 20]⟩ else none

/-- Specification of one placement attempt, in the claim's words: the
artifact label goes to the first corner key, among the four shuffled
candidates, whose sequence is empty, and the target label to the target
cell's center key; when no candidate is empty the dictionary is returned
unchanged. -/
def placementSpec (d : PgDict) (corners : List (Nat × Nat)) (aA bA aT bT : Nat)
    (color : String) : PgDict :=
  match corners.find? (fun c => findVal d (cornerKey (aA + c.1) (bA + c.2)) == some []) with
  | some c =>
    appendAt (appendAt d (cornerKey (aA + c.1) (bA + c.2)) ("artifact_" ++ color))
      (centerKey aT bT) ("target_" ++ color)
  | none => d

/-! ### Suite Generator (`create_experiment_suite`) -/

/-- One observable side effect of `create_experiment_suite`, in program
order: `shutil.rmtree`, `os.makedirs`, `json.dump` to a path, `print`. -/
inductive FsOp where
  | rmtree : String → FsOp
  | makedirs : String → FsOp
  | writeFile : String → PgDict → FsOp
  | printMsg : String → FsOp
deriving DecidableEq

/-- Path `grid_dir = os.path.join(self.base_path, f'env_pg_state_{rows}_{cols}')`. -/
def gridDirPath (base : String) (rows cols : Nat) : String :=
  base ++ "/env_pg_state_" ++ natStr rows ++ "_" ++ natStr cols

/-- Path `iteration_dir = os.path.join(grid_dir, f'pg_state{iteration}')`. -/
def iterationDirPath (base : String) (rows cols iteration : Nat) : String :=
  gridDirPath base rows cols ++ "/pg_state" ++ natStr iteration

/-- Path `config_file = os.path.join(iteration_dir, f'pg_state{iteration}.json')`. -/
def configFilePath (base : String) (rows cols iteration : Nat) : String :=
  iterationDirPath base rows cols iteration ++ "/pg_state" ++ natStr iteration ++ ".json"

/-- Message `f"Created environment: {rows}x{cols}, iteration {iteration}"`. -/
def progressMsg (rows cols iteration : Nat) : String :=
  "Created environment: " ++ natStr rows ++ "x" ++ natStr cols ++ ", iteration "
    ++ natStr iteration

/-- Side effects of one iteration of the inner loop: make the iteration
directory, synthesize the environment with the default artifact range
`[1,1]`, dump it at the deterministic path, print one progress line;
`none` propagates a synthesizer exception. -/
def envOps (base : String) (rows cols iteration : Nat)
    (o : Nat → Nat → Nat → List (List UnitDraw)) : Option (List FsOp) :=
  match create_environment rows cols 1 1 (o rows cols iteration) with
  | none => none
  | some environment =>
    some [FsOp.makedirs (iterationDirPath base rows cols iteration),
      FsOp.writeFile (configFilePath base rows cols iteration) environment,
      FsOp.printMsg (progressMsg rows cols iteration)]

/-- Sequence a loop body's optional op-lists, concatenating in order. -/
def seqOps {α : Type} : List α → (α → Option (List FsOp)) → Option (List FsOp)
  | [], _ => some []
  | x :: xs, f =>
    match f x, seqOps xs f with
    | some a, some b => some (a ++ b)
    | _, _ => none

/-- The suite generator `create_experiment_suite(repeat_num)`: if the base path exists remove
its whole tree, recreate the base directory, then for each fixed grid
size make the grid directory and generate `repeat_num` environments.
`baseExists` is the oracle for `os.path.exists(self.base_path)` and `o`
the random oracle of each `create_environment` call, keyed by grid size
and iteration index. -/
def create_experiment_suite (base : String) (baseExists : Bool) (repeat_num : Nat)
    (o : Nat → Nat → Nat → List (List UnitDraw)) : Option (List FsOp) :=
  match seqOps grid_sizes (fun rc =>
    match seqOps (List.range repeat_num)
        (fun iteration => envOps base rc.1 rc.2 iteration o) with
    | none => none
    | some t => some (FsOp.makedirs (gridDirPath base rc.1 rc.2) :: t)) with
  | none => none
  | some t =>
    some ((if baseExists then [FsOp.rmtree base] else []) ++ FsOp.makedirs base :: t)

/-! ### Report Renderer (`generate_comparison_report`) -/

/-- Round to the nearest integer, ties to even (the rounding applied by
Python's fixed-point format specifiers). -/
def roundHalfEven (q : ℚ) : ℤ :=
  let f := ⌊q⌋
  let r := q - f
  if r < 1/2 then f
  else if 1/2 < r then f + 1
  else if f % 2 = 0 then f else f + 1

/-- Decimal rendering of an integer. -/
def intStr (z : ℤ) : String :=
  if z < 0 then "-" ++ natStr z.natAbs else natStr z.natAbs

/-- A block of exactly `width` digits, left-padded with zeros. -/
def padZeros (width n : Nat) : String :=
  ⟨List.replicate (width - (natStrAux n).length) '0' ++ natStrAux n⟩

/-- Python `f"{q:.{prec}f}"` for `prec ≥ 1` decimals (exact for the
binary-representable values this pipeline formats). -/
def fixedFormat (prec : Nat) (q : ℚ) : String :=
  let z := roundHalfEven (q * 10 ^ prec)
  (if z < 0 then "-" else "")
    ++ natStr (z.natAbs / 10 ^ prec) ++ "." ++ padZeros prec (z.natAbs % 10 ^ prec)

/-- Python `f"{q:.0f}"`: integer rendering after rounding. -/
def intFormat (q : ℚ) : String := intStr (roundHalfEven q)

/-- Python `f"{q:.2%}"`: percentage with two decimal digits. -/
def pctFormat (q : ℚ) : String := fixedFormat 2 (q * 100) ++ "%"

/-- Python `method.replace('_', ' ')`. -/
def replaceUnderscores (s : String) : String :=
  ⟨s.data.map fun c => if c = '_' then ' ' else c⟩

/-- Python `str.title()` on ASCII text: uppercase a letter starting an
alphabetic run, lowercase the other letters, leave the rest unchanged. -/
def titleChars : List Char → Bool → List Char
  | [], _ => []
  | c :: cs, prevAlpha =>
    (if c.isAlpha then (if prevAlpha then c.toLower else c.toUpper) else c)
      :: titleChars cs c.isAlpha

def titleStr (s : String) : String := ⟨titleChars s.data false⟩

/-- Python `config.split('_', 1)`: split at the first underscore.  Every
configuration key contains an underscore; on a string without one the
source's tuple unpacking would raise, a case no reachable input hits. -/
def splitFirstUnderscore (s : String) : String × String :=
  go [] s.data
where go (acc : List Char) : List Char → String × String
  | [] => (⟨acc.reverse⟩, "")
  | c :: cs => if c = '_' then (⟨acc.reverse⟩, ⟨cs⟩) else go (c :: acc) cs

/-- The report title line followed by a blank line. -/
def header_line : String := "# Multi-Agent Framework Analysis Report\n\n"

def table_header : String :=
  "| Framework | Dialogue Method | Success Rate | Avg Action Time | Avg Token Usage | Avg API Queries |\n"

def table_separator : String :=
  "|-----------|----------------|--------------|-----------------|-----------------|------------------|\n"

/-- One table row: split the configuration key at the first underscore,
title-case the method with spaces, then the four formatted metrics. -/
def reportRow (config : String) (metrics : AggStats) : String :=
  let fm := splitFirstUnderscore config
  let method_display := titleStr (replaceUnderscores fm.2)
  "| " ++ fm.1 ++ " | " ++ method_display ++ " | "
    ++ pctFormat metrics.success_rate ++ " | "
    ++ fixedFormat 1 metrics.avg_action_time ++ " | "
    ++ intFormat metrics.avg_token_usage ++ " | "
    ++ fixedFormat 1 metrics.avg_api_queries ++ " |\n"

/-- One grid-size section, accumulated with `+=` like the source. -/
def reportSection (grid_size : String) (grid_results : List (String × AggStats)) : String :=
  grid_results.foldl (fun report cm => report ++ reportRow cm.1 cm.2)
    ("## Grid Size: " ++ grid_size ++ "\n\n" ++ table_header ++ table_separator) ++ "\n"

/-- The renderer `generate_comparison_report`: render `analyze_results` section by
section, accumulating with `+=`. -/
def generate_comparison_report (fs : FS) (data_dir : String) : String :=
  (analyze_results fs data_dir).foldl
    (fun report g => report ++ reportSection g.1 g.2) header_line

/-- Concatenation of a list of strings in order. -/
def strConcat : List String → String
  | [] => ""
  | s :: rest => s ++ strConcat rest

/-- Renderer specification following the claim's words: the header, then
one section per entry in the given order, each section holding one row
per configuration in the given order with the four formatted cells. -/
def reportSpec (results : List (String × List (String × AggStats))) : String :=
  header_line ++ strConcat (results.map fun g =>
    "## Grid Size: " ++ g.1 ++ "\n\n" ++ table_header ++ table_separator
      ++ strConcat (g.2.map fun cm => reportRow cm.1 cm.2) ++ "\n")

/-! ### Lemmas and claim theorems -/

lemma natStrAuxGo_eq : ∀ fuel n, n < fuel →
    natStrAuxGo fuel n
      = if n = 0 then ['0'] else ((Nat.digits 10 n).map Nat.digitChar).reverse := by
  intro fuel
  induction fuel with
  | zero => intro n h; omega
  | succ f ih =>
    intro n hn
    by_cases h10 : n < 10
    · simp only [natStrAuxGo, if_pos h10]
      by_cases h0 : n = 0
      · subst h0; decide
      · rw [if_neg h0]
        have hdig : Nat.digits 10 n = [n] := by
          rw [Nat.digits_def' (by norm_num : (1:ℕ) < 10) (by omega)]
          rw [Nat.mod_eq_of_lt h10, Nat.div_eq_of_lt h10]
          simp
        rw [hdig]
        simp
    · simp only [natStrAuxGo, if_neg h10]
      have hd : n / 10 < f := by
        have h1 : n / 10 < n := Nat.div_lt_self (by omega) (by norm_num)
        omega
      rw [ih _ hd, if_neg (by omega : ¬ n / 10 = 0)]
      rw [Nat.digits_def' (by norm_num : (1:ℕ) < 10) (by omega : 0 < n)]
      rw [if_neg (show ¬n = 0 by omega)]
      simp

/-- The characterization of `natStrAux` through `Nat.digits` used in the
injectivity proofs. -/
lemma natStrAux_eq (n : Nat) :
    natStrAux n = if n = 0 then ['0'] else ((Nat.digits 10 n).map Nat.digitChar).reverse :=
  natStrAuxGo_eq _ _ (Nat.lt_succ_self n)

lemma string_data_append (a b : String) : (a ++ b).data = a.data ++ b.data := by
  cases a; cases b; rfl

lemma digitChar_injOn : ∀ d < 10, ∀ e < 10, Nat.digitChar d = Nat.digitChar e → d = e := by
  decide

lemma digitChar_isDigit : ∀ d < 10, (Nat.digitChar d).isDigit = true := by decide

lemma map_digitChar_inj : ∀ (l₁ l₂ : List Nat), (∀ d ∈ l₁, d < 10) → (∀ d ∈ l₂, d < 10) →
    l₁.map Nat.digitChar = l₂.map Nat.digitChar → l₁ = l₂ := by
  intro l₁
  induction l₁ with
  | nil => intro l₂ _ _ h; cases l₂ <;> simp_all
  | cons a as ih =>
    intro l₂ h₁ h₂ h
    cases l₂ with
    | nil => simp at h
    | cons b bs =>
      simp only [List.map_cons, List.cons.injEq] at h
      have ha : a = b :=
        digitChar_injOn a (h₁ a (by simp)) b (h₂ b (by simp)) h.1
      have hs : as = bs :=
        ih bs (fun d hd => h₁ d (by simp [hd])) (fun d hd => h₂ d (by simp [hd])) h.2
      rw [ha, hs]

lemma natStrAux_inj {m n : Nat} (h : natStrAux m = natStrAux n) : m = n := by
  rw [natStrAux_eq, natStrAux_eq] at h
  by_cases hm : m = 0 <;> by_cases hn : n = 0
  · exact hm.trans hn.symm
  · exfalso
    simp only [hm, if_pos rfl, if_neg hn] at h
    have h' : (Nat.digits 10 n).map Nat.digitChar = ['0'] := by
      have := congrArg List.reverse h
      simpa using this.symm
    have hd : Nat.digits 10 n = [0] := by
      apply map_digitChar_inj _ [0]
      · intro d hd; exact Nat.digits_lt_base (by norm_num) hd
      · intro d hd; simp at hd; omega
      · simpa using h'
    have : n = 0 := by
      have := Nat.ofDigits_digits 10 n
      rw [hd] at this
      simpa [Nat.ofDigits] using this.symm
    exact hn this
  · exfalso
    simp only [hn, if_pos rfl, if_neg hm] at h
    have h' : (Nat.digits 10 m).map Nat.digitChar = ['0'] := by
      have := congrArg List.reverse h
      simpa using this
    have hd : Nat.digits 10 m = [0] := by
      apply map_digitChar_inj _ [0]
      · intro d hd; exact Nat.digits_lt_base (by norm_num) hd
      · intro d hd; simp at hd; omega
      · simpa using h'
    have : m = 0 := by
      have := Nat.ofDigits_digits 10 m
      rw [hd] at this
      simpa [Nat.ofDigits] using this.symm
    exact hm this
  · simp only [if_neg hm, if_neg hn] at h
    have h' : (Nat.digits 10 m).map Nat.digitChar = (Nat.digits 10 n).map Nat.digitChar := by
      have := congrArg List.reverse h
      simpa using this
    have hd : Nat.digits 10 m = Nat.digits 10 n := by
      apply map_digitChar_inj
      · intro d hd; exact Nat.digits_lt_base (by norm_num) hd
      · intro d hd; exact Nat.digits_lt_base (by norm_num) hd
      · exact h'
    have h10 := Nat.ofDigits_digits 10 m
    rw [hd, Nat.ofDigits_digits] at h10
    exact h10.symm

lemma natStrAux_isDigit {n : Nat} : ∀ c ∈ natStrAux n, c.isDigit = true := by
  intro c hc
  rw [natStrAux_eq] at hc
  split at hc
  · simp at hc; subst hc; decide
  · simp only [List.mem_reverse, List.mem_map] at hc
    obtain ⟨d, hd, rfl⟩ := hc
    exact digitChar_isDigit d (Nat.digits_lt_base (by norm_num) hd)

lemma centerKey_data (i j : Nat) : (centerKey i j).data = keyChars i '5' j '5' := by
  simp [centerKey, halfStr, natStr, string_data_append, keyChars, coordChars]

lemma cornerKey_data (i j : Nat) : (cornerKey i j).data = keyChars i '0' j '0' := by
  simp [cornerKey, wholeStr, natStr, string_data_append, keyChars, coordChars]

lemma underscore_not_mem_coordChars {n : Nat} {frac : Char} (hf : frac ≠ '_') :
    '_' ∉ coordChars n frac := by
  intro hmem
  simp only [coordChars, List.mem_append, List.mem_cons] at hmem
  rcases hmem with h | h
  · have := natStrAux_isDigit '_' h
    simp at this
  · rcases h with h | h | h
    · exact absurd h (by decide)
    · exact hf h.symm
    · simp at h

lemma append_cons_eq_append_cons {x : Char} {l₁ r₁ l₂ r₂ : List Char}
    (h₁ : x ∉ l₁) (h₂ : x ∉ l₂) (h : l₁ ++ x :: r₁ = l₂ ++ x :: r₂) :
    l₁ = l₂ ∧ r₁ = r₂ := by
  induction l₁ generalizing l₂ with
  | nil =>
    cases l₂ with
    | nil => simpa using h
    | cons b bs =>
      exfalso
      simp only [List.nil_append, List.cons_append, List.cons.injEq] at h
      exact h₂ (by simp [← h.1])
  | cons a as ih =>
    cases l₂ with
    | nil =>
      exfalso
      simp only [List.cons_append, List.nil_append, List.cons.injEq] at h
      exact h₁ (by simp [h.1])
    | cons b bs =>
      simp only [List.cons_append, List.cons.injEq] at h
      have hrec := ih (fun hx => h₁ (List.mem_cons_of_mem _ hx))
        (fun hx => h₂ (List.mem_cons_of_mem _ hx)) h.2
      exact ⟨by rw [h.1, hrec.1], hrec.2⟩

lemma coordChars_inj {a a' : Nat} {fa fa' : Char} (h : coordChars a fa = coordChars a' fa') :
    a = a' ∧ fa = fa' := by
  have := List.append_inj' h rfl
  refine ⟨natStrAux_inj this.1, ?_⟩
  have := this.2
  simp only [List.cons.injEq] at this
  exact this.2.1

lemma keyChars_inj {a b a' b' : Nat} {fa fb fa' fb' : Char}
    (hfa : fa ≠ '_') (hfa' : fa' ≠ '_')
    (h : keyChars a fa b fb = keyChars a' fa' b' fb') :
    a = a' ∧ fa = fa' ∧ b = b' ∧ fb = fb' := by
  obtain ⟨h₁, h₂⟩ := append_cons_eq_append_cons
    (underscore_not_mem_coordChars hfa) (underscore_not_mem_coordChars hfa') h
  obtain ⟨ha, hfa⟩ := coordChars_inj h₁
  obtain ⟨hb, hfb⟩ := coordChars_inj h₂
  exact ⟨ha, hfa, hb, hfb⟩

lemma centerKey_inj {i j i' j' : Nat} (h : centerKey i j = centerKey i' j') :
    i = i' ∧ j = j' := by
  have hd := congrArg String.data h
  rw [centerKey_data, centerKey_data] at hd
  have := keyChars_inj (by decide) (by decide) hd
  exact ⟨this.1, this.2.2.1⟩

lemma cornerKey_inj {i j i' j' : Nat} (h : cornerKey i j = cornerKey i' j') :
    i = i' ∧ j = j' := by
  have hd := congrArg String.data h
  rw [cornerKey_data, cornerKey_data] at hd
  have := keyChars_inj (by decide) (by decide) hd
  exact ⟨this.1, this.2.2.1⟩

lemma centerKey_ne_cornerKey (i j i' j' : Nat) : centerKey i j ≠ cornerKey i' j' := by
  intro h
  have hd := congrArg String.data h
  rw [centerKey_data, cornerKey_data] at hd
  have := keyChars_inj (by decide) (by decide) hd
  exact absurd this.2.1 (by decide)

lemma keysOf_appendAt (d : PgDict) (k x : String) : keysOf (appendAt d k x) = keysOf d := by
  induction d with
  | nil => rfl
  | cons kv rest ih =>
    obtain ⟨k', v⟩ := kv
    by_cases h : k' = k <;> simp [appendAt, keysOf, h] <;> simpa [keysOf] using ih

lemma findVal_isSome_iff (d : PgDict) (k : String) : (findVal d k).isSome ↔ k ∈ keysOf d := by
  induction d with
  | nil => simp [findVal, keysOf]
  | cons kv rest ih =>
    obtain ⟨k', v⟩ := kv
    by_cases h : k' = k
    · subst h
      simp [findVal, keysOf]
    · simp only [findVal, if_neg h, keysOf, List.map_cons, List.mem_cons]
      rw [show (keysOf rest) = List.map Prod.fst rest from rfl] at ih
      rw [ih]
      constructor
      · exact fun hm => Or.inr hm
      · intro hm
        rcases hm with hm | hm
        · exact absurd hm.symm h
        · exact hm

lemma findVal_mem (d : PgDict) (k : String) (v : List String) (h : findVal d k = some v) :
    (k, v) ∈ d := by
  induction d with
  | nil => simp [findVal] at h
  | cons kv rest ih =>
    obtain ⟨k', v'⟩ := kv
    by_cases hk : k' = k
    · simp [findVal, hk] at h
      simp [hk, h]
    · simp [findVal, hk] at h
      exact List.mem_cons_of_mem _ (ih h)

lemma isPrefixOf_iff_exists :
    ∀ l₁ l₂ : List Char, l₁.isPrefixOf l₂ = true ↔ ∃ t, l₂ = l₁ ++ t := by
  intro l₁
  induction l₁ with
  | nil => intro l₂; simp [List.isPrefixOf]
  | cons a as ih =>
    intro l₂
    cases l₂ with
    | nil => simp [List.isPrefixOf]
    | cons b bs =>
      simp only [List.isPrefixOf, Bool.and_eq_true, beq_iff_eq, ih bs]
      constructor
      · rintro ⟨rfl, t, rfl⟩
        exact ⟨t, rfl⟩
      · rintro ⟨t, ht⟩
        simp only [List.cons_append, List.cons.injEq] at ht
        exact ⟨ht.1.symm, t, ht.2⟩

lemma strStartsWith_iff (s p : String) : strStartsWith s p = true ↔ ∃ t, s.data = p.data ++ t :=
  isPrefixOf_iff_exists p.data s.data

lemma strStartsWith_append (p c : String) : strStartsWith (p ++ c) p = true := by
  rw [strStartsWith_iff]
  exact ⟨c.data, string_data_append _ _⟩

lemma startsWith_head_eq {s p q : String} {cp cq : Char}
    (hp : strStartsWith s p = true) (hq : strStartsWith s q = true)
    (hpd : p.data.head? = some cp) (hqd : q.data.head? = some cq) : cp = cq := by
  rw [strStartsWith_iff] at hp hq
  obtain ⟨t, ht⟩ := hp
  obtain ⟨t', ht'⟩ := hq
  cases hp' : p.data with
  | nil => rw [hp'] at hpd; simp at hpd
  | cons c cr =>
    cases hq' : q.data with
    | nil => rw [hq'] at hqd; simp at hqd
    | cons c' cr' =>
      rw [hp'] at hpd ht
      rw [hq'] at hqd ht'
      simp only [List.head?_cons, Option.some.injEq] at hpd hqd
      rw [ht] at ht'
      have := congrArg List.head? ht'
      simp only [List.cons_append, List.head?_cons, Option.some.injEq] at this
      rw [← hpd, ← hqd, this]

lemma artifact_not_target {s : String} (h : strStartsWith s "artifact_" = true) :
    strStartsWith s "target_" = false := by
  by_contra hb
  rw [Bool.not_eq_false] at hb
  have := startsWith_head_eq h hb (show "artifact_".data.head? = some 'a' from rfl)
    (show "target_".data.head? = some 't' from rfl)
  exact absurd this (by decide)

lemma target_not_artifact {s : String} (h : strStartsWith s "target_" = true) :
    strStartsWith s "artifact_" = false := by
  by_contra hb
  rw [Bool.not_eq_false] at hb
  have := startsWith_head_eq h hb (show "target_".data.head? = some 't' from rfl)
    (show "artifact_".data.head? = some 'a' from rfl)
  exact absurd this (by decide)

lemma countP_itemList_appendAt (p : String → Bool) (d : PgDict) (k x : String)
    (hk : k ∈ keysOf d) :
    (itemList (appendAt d k x)).countP p
      = (itemList d).countP p + (if p x then 1 else 0) := by
  induction d with
  | nil => simp [keysOf] at hk
  | cons kv rest ih =>
    obtain ⟨k', v⟩ := kv
    by_cases h : k' = k
    · simp only [appendAt, if_pos h, itemList, List.flatMap_cons, List.countP_append]
      cases hpx : p x <;>
        simp [hpx, List.countP_append, List.countP_cons, List.countP_nil] <;> omega
    · have hk' : k ∈ keysOf rest := by
        simp only [keysOf, List.map_cons, List.mem_cons] at hk
        rcases hk with hk | hk
        · exact absurd hk.symm h
        · simpa [keysOf] using hk
      simp only [appendAt, if_neg h, itemList, List.flatMap_cons, List.countP_append]
      have := ih hk'
      simp only [itemList] at this
      omega

lemma items_fold_counts (items : List String) (acc : Nat × Nat) :
    items.foldl
        (fun (acc : Nat × Nat) item =>
          if strStartsWith item "artifact_" then (acc.1 + 1, acc.2)
          else if strStartsWith item "target_" then (acc.1, acc.2 + 1)
          else acc)
        acc
      = (acc.1 + items.countP (fun s => strStartsWith s "artifact_"),
         acc.2 + items.countP (fun s => strStartsWith s "target_")) := by
  induction items generalizing acc with
  | nil => simp
  | cons item rest ih =>
    by_cases hA : strStartsWith item "artifact_"
    · have hT := artifact_not_target hA
      simp only [List.foldl_cons, hA, hT, if_true, if_false, Bool.false_eq_true, ih,
        List.countP_cons, Prod.mk.injEq]
      constructor <;> omega
    · by_cases hT : strStartsWith item "target_"
      · simp only [List.foldl_cons, hA, hT, if_true, if_false, Bool.false_eq_true, ih,
          List.countP_cons, Prod.mk.injEq]
        constructor <;> omega
      · simp only [List.foldl_cons, hA, hT, if_false, Bool.false_eq_true, ih,
          List.countP_cons, Prod.mk.injEq]
        constructor <;> omega

lemma env_fold_counts (d : PgDict) (acc : Nat × Nat) :
    d.foldl
        (fun (acc : Nat × Nat) kv =>
          kv.2.foldl
            (fun (acc : Nat × Nat) item =>
              if strStartsWith item "artifact_" then (acc.1 + 1, acc.2)
              else if strStartsWith item "target_" then (acc.1, acc.2 + 1)
              else acc)
            acc)
        acc
      = (acc.1 + artifact_count d, acc.2 + target_count d) := by
  induction d generalizing acc with
  | nil => simp [artifact_count, target_count, itemList]
  | cons kv rest ih =>
    rw [List.foldl_cons, items_fold_counts, ih]
    simp only [artifact_count, target_count, itemList, List.flatMap_cons,
      List.countP_append, Prod.mk.injEq]
    constructor <;> omega

/-- Characterization of the validator used by several claims. -/
lemma validate_environment_iff (d : PgDict) :
    validate_environment d = true ↔
      artifact_count d = target_count d ∧ 0 < artifact_count d := by
  unfold validate_environment
  rw [env_fold_counts]
  simp

/-! ### Structure of the initial grid -/

lemma initGrid_values_empty (rows cols : Nat) :
    ∀ kv ∈ initGrid rows cols, kv.2 = ([] : List String) := by
  intro kv hkv
  simp only [initGrid, List.mem_append, List.mem_flatMap, List.mem_map, List.mem_range] at hkv
  rcases hkv with ⟨i, _, j, _, rfl⟩ | ⟨i, _, j, _, rfl⟩ <;> rfl

lemma flatMap_snd_nil : ∀ d : PgDict, (∀ kv ∈ d, kv.2 = ([] : List String)) →
    d.flatMap Prod.snd = [] := by
  intro d
  induction d with
  | nil => intro _; rfl
  | cons kv rest ih =>
    intro h
    rw [List.flatMap_cons, h kv (by simp), ih fun kv' hkv' => h kv' (by simp [hkv'])]
    rfl

lemma itemList_initGrid (rows cols : Nat) : itemList (initGrid rows cols) = [] :=
  flatMap_snd_nil _ (initGrid_values_empty rows cols)

lemma artifact_count_initGrid (rows cols : Nat) : artifact_count (initGrid rows cols) = 0 := by
  unfold artifact_count
  rw [itemList_initGrid]
  rfl

lemma target_count_initGrid (rows cols : Nat) : target_count (initGrid rows cols) = 0 := by
  unfold target_count
  rw [itemList_initGrid]
  rfl

lemma keysOf_initGrid (rows cols : Nat) :
    keysOf (initGrid rows cols)
      = ((List.range rows).flatMap fun i => (List.range cols).map fun j => centerKey i j)
        ++ ((List.range (rows + 1)).flatMap fun i =>
            (List.range (cols + 1)).map fun j => cornerKey i j) := by
  simp [initGrid, keysOf, List.map_flatMap, List.map_map, Function.comp_def]

lemma centerKey_mem_initGrid {rows cols i j : Nat} (hi : i < rows) (hj : j < cols) :
    centerKey i j ∈ keysOf (initGrid rows cols) := by
  rw [keysOf_initGrid]
  refine List.mem_append_left _ ?_
  simp only [List.mem_flatMap, List.mem_map, List.mem_range]
  exact ⟨i, hi, j, hj, rfl⟩

lemma cornerKey_mem_initGrid {rows cols i j : Nat} (hi : i ≤ rows) (hj : j ≤ cols) :
    cornerKey i j ∈ keysOf (initGrid rows cols) := by
  rw [keysOf_initGrid]
  refine List.mem_append_right _ ?_
  simp only [List.mem_flatMap, List.mem_map, List.mem_range]
  exact ⟨i, by omega, j, by omega, rfl⟩

lemma initGrid_keys_nodup (rows cols : Nat) : (keysOf (initGrid rows cols)).Nodup := by
  rw [keysOf_initGrid, List.nodup_append]
  refine ⟨?_, ?_, ?_⟩
  · rw [List.nodup_flatMap]
    constructor
    · intro i _
      exact (List.nodup_range cols).map fun j j' h => (centerKey_inj h).2
    · refine (List.pairwise_lt_range rows).imp ?_
      intro i i' hlt x hx hx'
      simp only [List.mem_map, List.mem_range] at hx hx'
      obtain ⟨j, _, rfl⟩ := hx
      obtain ⟨j', _, hx'⟩ := hx'
      exact absurd (centerKey_inj hx'.symm).1 (by omega)
  · rw [List.nodup_flatMap]
    constructor
    · intro i _
      exact (List.nodup_range (cols + 1)).map fun j j' h => (cornerKey_inj h).2
    · refine (List.pairwise_lt_range (rows + 1)).imp ?_
      intro i i' hlt x hx hx'
      simp only [List.mem_map, List.mem_range] at hx hx'
      obtain ⟨j, _, rfl⟩ := hx
      obtain ⟨j', _, hx'⟩ := hx'
      exact absurd (cornerKey_inj hx'.symm).1 (by omega)
  · intro x hx hx'
    simp only [List.mem_flatMap, List.mem_map, List.mem_range] at hx hx'
    obtain ⟨i, _, j, _, rfl⟩ := hx
    obtain ⟨i', _, j', _, hx'⟩ := hx'
    exact centerKey_ne_cornerKey i j i' j' hx'.symm

lemma initGrid_length (rows cols : Nat) :
    (initGrid rows cols).length = rows * cols + (rows + 1) * (cols + 1) := by
  rw [initGrid, List.length_append, List.length_flatMap, List.length_flatMap]
  simp only [Function.comp_def, List.length_map, List.length_range, List.map_const',
    List.sum_replicate, List.length_range, smul_eq_mul]

lemma goodGrid_initGrid (rows cols : Nat) : GoodGrid rows cols (initGrid rows cols) :=
  ⟨fun _ hi _ hj => cornerKey_mem_initGrid hi hj,
   fun _ hi _ hj => centerKey_mem_initGrid hi hj⟩

lemma goodGrid_of_keysOf_eq {rows cols : Nat} {d d' : PgDict}
    (hk : keysOf d' = keysOf d) (hg : GoodGrid rows cols d) : GoodGrid rows cols d' :=
  ⟨fun i hi j hj => hk ▸ hg.1 i hi j hj, fun i hi j hj => hk ▸ hg.2 i hi j hj⟩

lemma counts_after_place (d : PgDict) (k ct color : String)
    (hk : k ∈ keysOf d) (hct : ct ∈ keysOf d) :
    artifact_count (appendAt (appendAt d k ("artifact_" ++ color)) ct ("target_" ++ color))
        = artifact_count d + 1 ∧
      target_count (appendAt (appendAt d k ("artifact_" ++ color)) ct ("target_" ++ color))
        = target_count d + 1 := by
  have hct' : ct ∈ keysOf (appendAt d k ("artifact_" ++ color)) := by
    rw [keysOf_appendAt]; exact hct
  constructor
  · unfold artifact_count
    rw [countP_itemList_appendAt _ _ _ _ hct', countP_itemList_appendAt _ _ _ _ hk]
    rw [if_pos (strStartsWith_append "artifact_" color),
      if_neg (by simp [target_not_artifact (strStartsWith_append "target_" color)])]
  · unfold target_count
    rw [countP_itemList_appendAt _ _ _ _ hct', countP_itemList_appendAt _ _ _ _ hk]
    rw [if_pos (strStartsWith_append "target_" color),
      if_neg (by simp [artifact_not_target (strStartsWith_append "artifact_" color)])]

lemma tryPlace_sound (rows cols : Nat) (d : PgDict) (corners : List (Nat × Nat))
    (aA bA aT bT : Nat) (color : String)
    (hg : GoodGrid rows cols d)
    (hcor : ∀ c ∈ corners, aA + c.1 ≤ rows ∧ bA + c.2 ≤ cols)
    (haT : aT < rows) (hbT : bT < cols) :
    ∃ d' n, tryPlace d corners aA bA aT bT color = some d' ∧
      keysOf d' = keysOf d ∧ n ≤ 1 ∧
      artifact_count d' = artifact_count d + n ∧
      target_count d' = target_count d + n := by
  induction corners with
  | nil => exact ⟨d, 0, rfl, rfl, by omega, rfl, rfl⟩
  | cons c rest ih =>
    have hmemCk : cornerKey (aA + c.1) (bA + c.2) ∈ keysOf d :=
      hg.1 _ (hcor c (by simp)).1 _ (hcor c (by simp)).2
    obtain ⟨items, hitems⟩ :=
      Option.isSome_iff_exists.mp ((findVal_isSome_iff _ _).mpr hmemCk)
    have hmemCt : centerKey aT bT ∈ keysOf d := hg.2 _ haT _ hbT
    obtain ⟨ct, hct⟩ :=
      Option.isSome_iff_exists.mp ((findVal_isSome_iff _ _).mpr hmemCt)
    have hstep : tryPlace d (c :: rest) aA bA aT bT color
        = if items.length = 0 then
            some (appendAt
              (appendAt d (cornerKey (aA + c.1) (bA + c.2)) ("artifact_" ++ color))
              (centerKey aT bT) ("target_" ++ color))
          else tryPlace d rest aA bA aT bT color := by
      simp only [tryPlace, hitems, hct]
    by_cases hlen : items.length = 0
    · refine ⟨appendAt
          (appendAt d (cornerKey (aA + c.1) (bA + c.2)) ("artifact_" ++ color))
          (centerKey aT bT) ("target_" ++ color), 1, ?_, ?_, by omega, ?_, ?_⟩
      · rw [hstep, if_pos hlen]
      · rw [keysOf_appendAt, keysOf_appendAt]
      · exact (counts_after_place d _ _ color hmemCk hmemCt).1
      · exact (counts_after_place d _ _ color hmemCk hmemCt).2
    · obtain ⟨d', n, hrec, hk, hn, ha, ht⟩ := ih (fun c' hc' => hcor c' (by simp [hc']))
      exact ⟨d', n, by rw [hstep, if_neg hlen]; exact hrec, hk, hn, ha, ht⟩

lemma tryPlace_first_empty (rows cols : Nat) (d : PgDict) (c : Nat × Nat)
    (rest : List (Nat × Nat)) (aA bA aT bT : Nat) (color : String)
    (hg : GoodGrid rows cols d)
    (hcA : aA + c.1 ≤ rows) (hcB : bA + c.2 ≤ cols)
    (haT : aT < rows) (hbT : bT < cols)
    (hempty : ∀ kv ∈ d, kv.2 = ([] : List String)) :
    ∃ d', tryPlace d (c :: rest) aA bA aT bT color = some d' ∧
      keysOf d' = keysOf d ∧
      artifact_count d' = artifact_count d + 1 ∧
      target_count d' = target_count d + 1 := by
  have hmemCk : cornerKey (aA + c.1) (bA + c.2) ∈ keysOf d := hg.1 _ hcA _ hcB
  obtain ⟨items, hitems⟩ :=
    Option.isSome_iff_exists.mp ((findVal_isSome_iff _ _).mpr hmemCk)
  have hitems0 : items = [] := hempty _ (findVal_mem d _ _ hitems)
  have hmemCt : centerKey aT bT ∈ keysOf d := hg.2 _ haT _ hbT
  obtain ⟨ct, hct⟩ :=
    Option.isSome_iff_exists.mp ((findVal_isSome_iff _ _).mpr hmemCt)
  refine ⟨appendAt
      (appendAt d (cornerKey (aA + c.1) (bA + c.2)) ("artifact_" ++ color))
      (centerKey aT bT) ("target_" ++ color), ?_, ?_, ?_, ?_⟩
  · simp only [tryPlace, hitems, hct, hitems0, List.length_nil, if_pos]
  · rw [keysOf_appendAt, keysOf_appendAt]
  · exact (counts_after_place d _ _ color hmemCk hmemCt).1
  · exact (counts_after_place d _ _ color hmemCk hmemCt).2

lemma corner_bounds {rows cols : Nat} (hc : 0 < cols) {sq : Nat} (hsq : sq < rows * cols)
    {c : Nat × Nat} (hcc : c ∈ corner_options) :
    sq / cols + c.1 ≤ rows ∧ sq % cols + c.2 ≤ cols := by
  have h1 : sq / cols < rows := by
    rw [Nat.div_lt_iff_lt_mul hc]
    exact hsq
  have h2 : sq % cols < cols := Nat.mod_lt _ hc
  have hcb : c.1 ≤ 1 ∧ c.2 ≤ 1 := by
    simp only [corner_options, List.mem_cons, List.not_mem_nil, or_false] at hcc
    rcases hcc with rfl | rfl | rfl | rfl <;> simp
  omega

lemma placeUnit_sound {rows cols : Nat} (hc : 0 < cols) (color : String) (d : PgDict)
    (u : UnitDraw) (hu : u.Valid rows cols) (hg : GoodGrid rows cols d) :
    ∃ d' n, placeUnit cols color d u = some d' ∧ keysOf d' = keysOf d ∧ n ≤ 1 ∧
      artifact_count d' = artifact_count d + n ∧ target_count d' = target_count d + n := by
  obtain ⟨hsa, hst, hperm⟩ := hu
  unfold placeUnit
  apply tryPlace_sound rows cols d u.corners _ _ _ _ color hg
  · intro c hcc
    exact corner_bounds hc hsa (hperm.mem_iff.mp hcc)
  · rw [Nat.div_lt_iff_lt_mul hc]
    exact hst
  · exact Nat.mod_lt _ hc

lemma placeUnit_first_on_empty {rows cols : Nat} (hc : 0 < cols) (color : String)
    (d : PgDict) (u : UnitDraw) (hu : u.Valid rows cols) (hg : GoodGrid rows cols d)
    (hempty : ∀ kv ∈ d, kv.2 = ([] : List String)) :
    ∃ d', placeUnit cols color d u = some d' ∧ keysOf d' = keysOf d ∧
      artifact_count d' = artifact_count d + 1 ∧ target_count d' = target_count d + 1 := by
  obtain ⟨hsa, hst, hperm⟩ := hu
  obtain ⟨c, rest, hcr⟩ : ∃ c rest, u.corners = c :: rest := by
    cases hcorn : u.corners with
    | nil =>
      exfalso
      have := hperm.length_eq
      rw [hcorn] at this
      simp [corner_options] at this
    | cons c rest => exact ⟨c, rest, rfl⟩
  have hcmem : c ∈ corner_options := hperm.mem_iff.mp (by simp [hcr])
  have hb := corner_bounds hc hsa hcmem
  unfold placeUnit
  rw [hcr]
  exact tryPlace_first_empty rows cols d c rest _ _ _ _ color hg hb.1 hb.2
    (by rw [Nat.div_lt_iff_lt_mul hc]; exact hst) (Nat.mod_lt _ hc) hempty

lemma placeUnits_sound {rows cols : Nat} (hc : 0 < cols) (color : String) :
    ∀ (us : List UnitDraw) (d : PgDict), (∀ u ∈ us, u.Valid rows cols) →
      GoodGrid rows cols d →
      ∃ d' n, placeUnits cols color d us = some d' ∧ keysOf d' = keysOf d ∧
        artifact_count d' = artifact_count d + n ∧
        target_count d' = target_count d + n := by
  intro us
  induction us with
  | nil => exact fun d _ _ => ⟨d, 0, rfl, rfl, rfl, rfl⟩
  | cons u us ih =>
    intro d hv hg
    obtain ⟨d₁, n₁, h₁, hk₁, _, ha₁, ht₁⟩ :=
      placeUnit_sound hc color d u (hv u (by simp)) hg
    obtain ⟨d₂, n₂, h₂, hk₂, ha₂, ht₂⟩ :=
      ih d₁ (fun v hv' => hv v (by simp [hv'])) (goodGrid_of_keysOf_eq hk₁ hg)
    refine ⟨d₂, n₁ + n₂, ?_, by rw [hk₂, hk₁], by omega, by omega⟩
    simp only [placeUnits, h₁]
    exact h₂

lemma placeColors_sound {rows cols : Nat} (hc : 0 < cols) :
    ∀ (pairs : List (String × List UnitDraw)) (d : PgDict),
      (∀ p ∈ pairs, ∀ u ∈ p.2, u.Valid rows cols) →
      GoodGrid rows cols d →
      ∃ d' n, placeColors cols d pairs = some d' ∧ keysOf d' = keysOf d ∧
        artifact_count d' = artifact_count d + n ∧
        target_count d' = target_count d + n := by
  intro pairs
  induction pairs with
  | nil => exact fun d _ _ => ⟨d, 0, rfl, rfl, rfl, rfl⟩
  | cons p ps ih =>
    intro d hv hg
    obtain ⟨d₁, n₁, h₁, hk₁, ha₁, ht₁⟩ :=
      placeUnits_sound hc p.1 p.2 d (hv p (by simp)) hg
    obtain ⟨d₂, n₂, h₂, hk₂, ha₂, ht₂⟩ :=
      ih d₁ (fun q hq => hv q (by simp [hq])) (goodGrid_of_keysOf_eq hk₁ hg)
    refine ⟨d₂, n₁ + n₂, ?_, by rw [hk₂, hk₁], by omega, by omega⟩
    simp only [placeColors, h₁]
    exact h₂

lemma create_environment_sound (rows cols low high : Nat) (hr : 0 < rows) (hc : 0 < cols)
    (draws : List (List UnitDraw)) (hd : DrawsValid rows cols low high draws) :
    ∃ env, create_environment rows cols low high draws = some env ∧
      keysOf env = keysOf (initGrid rows cols) ∧
      artifact_count env = target_count env ∧
      (1 ≤ low → 1 ≤ artifact_count env) := by
  obtain ⟨hlen, hall⟩ := hd
  obtain ⟨us₀, drest, rfl⟩ : ∃ us₀ drest, draws = us₀ :: drest := by
    cases draws with
    | nil => simp [colors] at hlen
    | cons us₀ drest => exact ⟨us₀, drest, rfl⟩
  have hzip : colors.zip (us₀ :: drest)
      = ("blue", us₀) :: (["red", "green", "purple", "orange"].zip drest) := by
    simp [colors]
  have hg₀ : GoodGrid rows cols (initGrid rows cols) := goodGrid_initGrid rows cols
  have hvalid₀ := hall us₀ (by simp)
  have hvalidRest : ∀ p ∈ ["red", "green", "purple", "orange"].zip drest,
      ∀ u ∈ p.2, u.Valid rows cols := by
    intro p hp u hu
    have : p.2 ∈ drest := List.of_mem_zip hp |>.2
    exact (hall p.2 (by simp [this])).2.2 u hu
  unfold create_environment
  rw [hzip]
  cases us₀ with
  | nil =>
    obtain ⟨env, n, henv, hkeys, ha, ht⟩ := placeColors_sound hc
      (("blue", ([] : List UnitDraw)) :: (["red", "green", "purple", "orange"].zip drest))
      (initGrid rows cols)
      (by
        intro p hp u hu
        rcases List.mem_cons.mp hp with rfl | hp'
        · simp at hu
        · exact hvalidRest p hp' u hu)
      hg₀
    refine ⟨env, henv, hkeys, ?_, ?_⟩
    · rw [ha, ht, artifact_count_initGrid, target_count_initGrid]
    · intro hlow
      exfalso
      have := (hall [] (by simp)).1
      simp at this
      omega
  | cons u₀ utail =>
    have hu₀ : u₀.Valid rows cols := hvalid₀.2.2 u₀ (by simp)
    obtain ⟨d₁, h₁, hk₁, ha₁, ht₁⟩ := placeUnit_first_on_empty hc "blue"
      (initGrid rows cols) u₀ hu₀ hg₀ (initGrid_values_empty rows cols)
    have hg₁ : GoodGrid rows cols d₁ := goodGrid_of_keysOf_eq hk₁ hg₀
    obtain ⟨d₂, n₂, h₂, hk₂, ha₂, ht₂⟩ := placeUnits_sound hc "blue" utail d₁
      (fun v hv' => hvalid₀.2.2 v (by simp [hv'])) hg₁
    obtain ⟨env, n₃, h₃, hk₃, ha₃, ht₃⟩ := placeColors_sound hc
      (["red", "green", "purple", "orange"].zip drest) d₂ hvalidRest
      (goodGrid_of_keysOf_eq hk₂ hg₁)
    refine ⟨env, ?_, by rw [hk₃, hk₂, hk₁], ?_, ?_⟩
    · simp only [placeColors, placeUnits, h₁]
      rw [show placeUnits cols "blue" d₁ utail = some d₂ from h₂]
      exact h₃
    · rw [ha₃, ht₃, ha₂, ht₂, ha₁, ht₁,
        artifact_count_initGrid, target_count_initGrid]
    · intro _
      rw [ha₃, ha₂, ha₁, artifact_count_initGrid]
      omega

lemma stepIteration_none (acc : AggAcc) : stepIteration acc none = acc := rfl

lemma stepIteration_valid (acc : AggAcc) (e : Option RunData) :
    (stepIteration acc e).valid_experiments
      = acc.valid_experiments
        + (match e with
           | some rd => if rd.statusLine.isSome then 1 else 0
           | none => 0) := by
  rcases e with _ | rd
  · rfl
  · rcases hs : rd.statusLine with _ | status
    · simp [stepIteration, hs]
    · rcases hA : rd.actionTime with _ | t <;> rcases hT : rd.tokens with _ | ts <;>
        by_cases h : status = "success" <;> simp [stepIteration, hs, hA, hT, h]

lemma stepIteration_preserved (acc : AggAcc) (e : Option RunData)
    (h : ∀ rd, e = some rd → ∀ s, rd.statusLine = some s → ¬ s = "success") :
    (stepIteration acc e).success_count = acc.success_count ∧
      (stepIteration acc e).total_action_time = acc.total_action_time ∧
      (stepIteration acc e).total_token_usage = acc.total_token_usage ∧
      (stepIteration acc e).total_api_queries = acc.total_api_queries := by
  rcases e with _ | rd
  · exact ⟨rfl, rfl, rfl, rfl⟩
  · rcases hs : rd.statusLine with _ | status
    · simp [stepIteration, hs]
    · have hns : ¬ status = "success" := h rd rfl status hs
      simp [stepIteration, hs, hns]

lemma stepIteration_success_count (acc : AggAcc) (rd : RunData) (s : String)
    (hs : rd.statusLine = some s) :
    (stepIteration acc (some rd)).success_count
      = acc.success_count + (if s = "success" then 1 else 0) := by
  rcases hA : rd.actionTime with _ | t <;> rcases hT : rd.tokens with _ | ts <;>
    by_cases h : s = "success" <;> simp [stepIteration, hs, hA, hT, h]

lemma stepIteration_full (acc : AggAcc) (t : ℚ) (ts : List ℚ) :
    stepIteration acc (some ⟨some "success", some t, some ts⟩)
      = ⟨acc.success_count + 1, acc.total_action_time + t,
         acc.total_token_usage + ts.sum, acc.total_api_queries + ts.length,
         acc.valid_experiments + 1⟩ := by
  simp [stepIteration]

lemma fold_valid_count (fs : FS) (data_dir : String) (rows cols : Nat) (fw dm : String) :
    ∀ (l : List Nat) (acc : AggAcc),
      (l.foldl (fun acc iteration =>
          stepIteration acc (fs (resultPath data_dir rows cols iteration fw dm)))
        acc).valid_experiments
        = acc.valid_experiments
          + l.countP (fun i =>
              match fs (resultPath data_dir rows cols i fw dm) with
              | some rd => rd.statusLine.isSome
              | none => false) := by
  intro l
  induction l with
  | nil => intro acc; simp
  | cons i is ih =>
    intro acc
    rw [List.foldl_cons, ih, List.countP_cons, stepIteration_valid]
    rcases hfs : fs (resultPath data_dir rows cols i fw dm) with _ | rd
    · simp
    · rcases hsl : rd.statusLine with _ | s <;> simp [hsl] <;> omega

lemma fold_no_success (fs : FS) (data_dir : String) (rows cols : Nat) (fw dm : String) :
    ∀ (l : List Nat) (acc : AggAcc),
      (∀ i ∈ l, ∀ rd, fs (resultPath data_dir rows cols i fw dm) = some rd →
        ∀ s, rd.statusLine = some s → ¬ s = "success") →
      ((l.foldl (fun acc iteration =>
          stepIteration acc (fs (resultPath data_dir rows cols iteration fw dm)))
        acc).success_count = acc.success_count ∧
       (l.foldl (fun acc iteration =>
          stepIteration acc (fs (resultPath data_dir rows cols iteration fw dm)))
        acc).total_action_time = acc.total_action_time ∧
       (l.foldl (fun acc iteration =>
          stepIteration acc (fs (resultPath data_dir rows cols iteration fw dm)))
        acc).total_token_usage = acc.total_token_usage ∧
       (l.foldl (fun acc iteration =>
          stepIteration acc (fs (resultPath data_dir rows cols iteration fw dm)))
        acc).total_api_queries = acc.total_api_queries) := by
  intro l
  induction l with
  | nil => exact fun acc _ => ⟨rfl, rfl, rfl, rfl⟩
  | cons i is ih =>
    intro acc h
    rw [List.foldl_cons]
    obtain ⟨h1, h2, h3, h4⟩ :=
      stepIteration_preserved acc (fs (resultPath data_dir rows cols i fw dm))
        (fun rd hrd s hsl => h i (by simp) rd hrd s hsl)
    obtain ⟨g1, g2, g3, g4⟩ := ih _ (fun j hj => h j (by simp [hj]))
    exact ⟨g1.trans h1, g2.trans h2, g3.trans h3, g4.trans h4⟩

/-- C1 counterexample: the result directory of iteration 0 exists on disk
(`os.path.exists(result_path)` is true) yet `total_experiments` is `0`,
not `1`: `valid_experiments += 1` sits inside the
`if os.path.exists(success_file)` block, so a directory without a status
file is never counted, contradicting "regardless of which files the
directory contains". -/
theorem c1_counterexample :
    (fsDirOnly (resultPath "/data" 2 2 0 "CMAS" "_wo_any_dialogue_history")).isSome = true ∧
      (_analyze_configuration fsDirOnly "/data" 2 2 "CMAS"
        "_wo_any_dialogue_history").total_experiments = 0 := by
  constructor
  · have h0 : fsDirOnly (resultPath "/data" 2 2 0 "CMAS" "_wo_any_dialogue_history")
        = some ⟨none, none, none⟩ := by
      unfold fsDirOnly
      rw [if_pos rfl]
    rw [h0]
    rfl
  · simp only [_analyze_configuration]
    rw [fold_valid_count]
    rw [show (List.range 10).countP (fun i =>
        match fsDirOnly (resultPath "/data" 2 2 i "CMAS" "_wo_any_dialogue_history") with
        | some rd => rd.statusLine.isSome
        | none => false) = 0 from by decide]

/-- C1 (amended): for every data directory, grid size and configuration,
`valid_experiments` (reported as `total_experiments`) counts exactly the
iterations in `[0,10)` whose result directory exists and whose
`success_failure.txt` status file also exists; an existing directory
without the status file is skipped. -/
theorem c1_total_experiments_counts_status_files (fs : FS) (data_dir : String)
    (pg_row_num pg_column_num : Nat) (framework dialogue_method : String) :
    (_analyze_configuration fs data_dir pg_row_num pg_column_num framework
        dialogue_method).total_experiments
      = (List.range 10).countP (fun i =>
          match fs (resultPath data_dir pg_row_num pg_column_num i framework dialogue_method) with
          | some rd => rd.statusLine.isSome
          | none => false) := by
  simp only [_analyze_configuration]
  rw [fold_valid_count]
  simp

/-- C2: a configuration with zero success-marked iterations (every status
file that exists says something other than `success`, or no data exists)
reports `success_rate = 0` and all three averages `0`; the `max(·,1)`
denominators make every division total. -/
theorem c2_zero_success_all_averages_zero (fs : FS) (data_dir : String)
    (pg_row_num pg_column_num : Nat) (framework dialogue_method : String)
    (h : ∀ i, i < 10 → ∀ rd,
      fs (resultPath data_dir pg_row_num pg_column_num i framework dialogue_method) = some rd →
      ∀ s, rd.statusLine = some s → ¬ s = "success") :
    (_analyze_configuration fs data_dir pg_row_num pg_column_num framework
        dialogue_method).success_rate = 0 ∧
      (_analyze_configuration fs data_dir pg_row_num pg_column_num framework
        dialogue_method).avg_action_time = 0 ∧
      (_analyze_configuration fs data_dir pg_row_num pg_column_num framework
        dialogue_method).avg_token_usage = 0 ∧
      (_analyze_configuration fs data_dir pg_row_num pg_column_num framework
        dialogue_method).avg_api_queries = 0 := by
  obtain ⟨h1, h2, h3, h4⟩ := fold_no_success fs data_dir pg_row_num pg_column_num
    framework dialogue_method (List.range 10) ⟨0, 0, 0, 0, 0⟩
    (fun i hi => h i (List.mem_range.mp hi))
  simp only [_analyze_configuration]
  refine ⟨?_, ?_, ?_, ?_⟩
  · rw [h1]
    simp
  · rw [h2]
    simp
  · rw [h3]
    simp
  · rw [h4]
    simp

/-- Witness for C2 at a concrete input: an entirely empty filesystem. -/
theorem c2_zero_success_all_averages_zero_witness :
    (_analyze_configuration (fun _ => none) "/data" 2 2 "CMAS"
        "_wo_any_dialogue_history").success_rate = 0 ∧
      (_analyze_configuration (fun _ => none) "/data" 2 2 "CMAS"
        "_wo_any_dialogue_history").avg_action_time = 0 ∧
      (_analyze_configuration (fun _ => none) "/data" 2 2 "CMAS"
        "_wo_any_dialogue_history").avg_token_usage = 0 ∧
      (_analyze_configuration (fun _ => none) "/data" 2 2 "CMAS"
        "_wo_any_dialogue_history").avg_api_queries = 0 :=
  c2_zero_success_all_averages_zero (fun _ => none) "/data" 2 2 "CMAS"
    "_wo_any_dialogue_history" (fun _ _ rd hrd => Option.noConfusion hrd)

/-- C7: on the single-success scenario the aggregator reports
`avg_action_time = 5.0`, `avg_token_usage = 30.0`, `avg_api_queries = 2.0`;
and in general a success is counted exactly when the status file's first
line equals the literal `success`. -/
theorem c7_single_success_metrics :
    ((_analyze_configuration fsOneSuccess "/data" 2 2 "CMAS"
        "_wo_any_dialogue_history").avg_action_time = 5 ∧
      (_analyze_configuration fsOneSuccess "/data" 2 2 "CMAS"
        "_wo_any_dialogue_history").avg_token_usage = 30 ∧
      (_analyze_configuration fsOneSuccess "/data" 2 2 "CMAS"
        "_wo_any_dialogue_history").avg_api_queries = 2) ∧
    ∀ (acc : AggAcc) (rd : RunData) (s : String), rd.statusLine = some s →
      (stepIteration acc (some rd)).success_count
        = acc.success_count + (if s = "success" then 1 else 0) := by
  constructor
  · have h0 : fsOneSuccess (resultPath "/data" 2 2 0 "CMAS" "_wo_any_dialogue_history")
        = some ⟨some "success", some 5, some [10, 20]⟩ := by
      unfold fsOneSuccess
      rw [if_pos rfl]
    have h1 : fsOneSuccess (resultPath "/data" 2 2 1 "CMAS" "_wo_any_dialogue_history")
        = none := by decide
    have h2 : fsOneSuccess (resultPath "/data" 2 2 2 "CMAS" "_wo_any_dialogue_history")
        = none := by decide
    have h3 : fsOneSuccess (resultPath "/data" 2 2 3 "CMAS" "_wo_any_dialogue_history")
        = none := by decide
    have h4 : fsOneSuccess (resultPath "/data" 2 2 4 "CMAS" "_wo_any_dialogue_history")
        = none := by decide
    have h5 : fsOneSuccess (resultPath "/data" 2 2 5 "CMAS" "_wo_any_dialogue_history")
        = none := by decide
    have h6 : fsOneSuccess (resultPath "/data" 2 2 6 "CMAS" "_wo_any_dialogue_history")
        = none := by decide
    have h7 : fsOneSuccess (resultPath "/data" 2 2 7 "CMAS" "_wo_any_dialogue_history")
        = none := by decide
    have h8 : fsOneSuccess (resultPath "/data" 2 2 8 "CMAS" "_wo_any_dialogue_history")
        = none := by decide
    have h9 : fsOneSuccess (resultPath "/data" 2 2 9 "CMAS" "_wo_any_dialogue_history")
        = none := by decide
    simp only [_analyze_configuration,
      show List.range 10 = [0, 1, 2, 3, 4, 5, 6, 7, 8, 9] from rfl,
      List.foldl_cons, List.foldl_nil, h0, h1, h2, h3, h4, h5, h6, h7, h8, h9,
      stepIteration_none, stepIteration_full]
    norm_num
  · exact stepIteration_success_count

/-! ### Keys are never removed (unconditional) -/

lemma tryPlace_keysOf : ∀ (corners : List (Nat × Nat)) (d d' : PgDict)
    (aA bA aT bT : Nat) (color : String),
    tryPlace d corners aA bA aT bT color = some d' → keysOf d' = keysOf d := by
  intro corners
  induction corners with
  | nil =>
    intro d d' aA bA aT bT color h
    simp only [tryPlace, Option.some.injEq] at h
    rw [← h]
  | cons c rest ih =>
    intro d d' aA bA aT bT color h
    rcases hfv : findVal d (cornerKey (aA + c.1) (bA + c.2)) with _ | items
    · simp only [tryPlace, hfv] at h
      exact Option.noConfusion h
    · simp only [tryPlace, hfv] at h
      by_cases hlen : items.length = 0
      · rw [if_pos hlen] at h
        rcases hct : findVal d (centerKey aT bT) with _ | ct
        · rw [hct] at h
          exact Option.noConfusion h
        · rw [hct] at h
          simp only [Option.some.injEq] at h
          rw [← h, keysOf_appendAt, keysOf_appendAt]
      · rw [if_neg hlen] at h
        exact ih d d' _ _ _ _ _ h

lemma placeUnits_keysOf : ∀ (us : List UnitDraw) (cols : Nat) (color : String)
    (d d' : PgDict),
    placeUnits cols color d us = some d' → keysOf d' = keysOf d := by
  intro us
  induction us with
  | nil =>
    intro cols color d d' h
    simp only [placeUnits, Option.some.injEq] at h
    rw [← h]
  | cons u us ih =>
    intro cols color d d' h
    rcases hp : placeUnit cols color d u with _ | d₁
    · simp only [placeUnits, hp] at h
      exact Option.noConfusion h
    · simp only [placeUnits, hp] at h
      unfold placeUnit at hp
      rw [ih cols color d₁ d' h, tryPlace_keysOf u.corners d d₁ _ _ _ _ _ hp]

lemma placeColors_keysOf : ∀ (pairs : List (String × List UnitDraw)) (cols : Nat)
    (d d' : PgDict),
    placeColors cols d pairs = some d' → keysOf d' = keysOf d := by
  intro pairs
  induction pairs with
  | nil =>
    intro cols d d' h
    simp only [placeColors, Option.some.injEq] at h
    rw [← h]
  | cons p ps ih =>
    intro cols d d' h
    rcases hp : placeUnits cols p.1 d p.2 with _ | d₁
    · simp only [placeColors, hp] at h
      exact Option.noConfusion h
    · simp only [placeColors, hp] at h
      rw [ih cols d₁ d' h, placeUnits_keysOf p.2 cols p.1 d d₁ hp]

lemma create_environment_keysOf (pg_row_num pg_column_num low high : Nat)
    (draws : List (List UnitDraw)) (env : PgDict)
    (h : create_environment pg_row_num pg_column_num low high draws = some env) :
    keysOf env = keysOf (initGrid pg_row_num pg_column_num) := by
  unfold create_environment at h
  exact placeColors_keysOf _ _ _ _ h

/-! ### The claims about the Environment Synthesizer and Validator -/

/-- C3: `validate_environment` returns true iff the number of labels
starting with `artifact_` equals the number starting with `target_` and
that count is positive; it is a total function by construction, and an
item matching neither prefix contributes to neither count. -/
theorem c3_validate_environment_characterization (environment : PgDict) :
    (validate_environment environment = true ↔
      artifact_count environment = target_count environment ∧
        0 < artifact_count environment) ∧
    ∀ k item : String, strStartsWith item "artifact_" = false →
      strStartsWith item "target_" = false →
      artifact_count [(k, [item])] = 0 ∧ target_count [(k, [item])] = 0 := by
  refine ⟨validate_environment_iff environment, ?_⟩
  intro k item hA hT
  constructor
  · simp [artifact_count, itemList, List.countP_cons, hA]
  · simp [target_count, itemList, List.countP_cons, hT]

/-- Witness for C3 at the empty environment. -/
theorem c3_validate_environment_characterization_witness :
    validate_environment [] = true ↔
      artifact_count [] = target_count [] ∧ 0 < artifact_count [] :=
  (c3_validate_environment_characterization []).1

lemma tryPlace_eq_placementSpec (d : PgDict) (corners : List (Nat × Nat))
    (aA bA aT bT : Nat) (color : String)
    (hpres : ∀ c ∈ corners, (findVal d (cornerKey (aA + c.1) (bA + c.2))).isSome = true)
    (hcen : (findVal d (centerKey aT bT)).isSome = true) :
    tryPlace d corners aA bA aT bT color
      = some (placementSpec d corners aA bA aT bT color) := by
  induction corners with
  | nil => rfl
  | cons c rest ih =>
    obtain ⟨items, hitems⟩ := Option.isSome_iff_exists.mp (hpres c (by simp))
    obtain ⟨ct, hct⟩ := Option.isSome_iff_exists.mp hcen
    by_cases hempty : items = []
    · subst hempty
      have hfind : (c :: rest).find?
          (fun c => findVal d (cornerKey (aA + c.1) (bA + c.2)) == some []) = some c :=
        List.find?_cons_of_pos _ (by simp [hitems])
      simp only [placementSpec, hfind, tryPlace, hitems, hct, List.length_nil, if_pos]
    · have hfind : (c :: rest).find?
          (fun c => findVal d (cornerKey (aA + c.1) (bA + c.2)) == some [])
            = rest.find? (fun c => findVal d (cornerKey (aA + c.1) (bA + c.2)) == some []) :=
        List.find?_cons_of_neg _ (by simp [hitems, hempty])
      have hlen : ¬ items.length = 0 := by
        intro h0
        exact hempty (List.length_eq_zero.mp h0)
      simp only [placementSpec, hfind, tryPlace, hitems, hct, if_neg hlen]
      rw [ih (fun c' hc' => hpres c' (by simp [hc']))]
      rfl

/-- C4: on a dictionary holding every candidate corner key and the target
center key, one unit's placement returns (without error) exactly the
claim's outcome: the artifact label appended at the first empty corner in
the shuffled visiting order together with the target label at the target
center key, and the unchanged dictionary when all four corners are
occupied (silent skip). -/
theorem c4_placement_first_empty_corner (d : PgDict) (corners : List (Nat × Nat))
    (aA bA aT bT : Nat) (color : String)
    (hshuf : corners.Perm corner_options)
    (hpres : ∀ c ∈ corners, (findVal d (cornerKey (aA + c.1) (bA + c.2))).isSome = true)
    (hcen : (findVal d (centerKey aT bT)).isSome = true) :
    tryPlace d corners aA bA aT bT color
        = some (placementSpec d corners aA bA aT bT color) ∧
      (corners.find? (fun c => findVal d (cornerKey (aA + c.1) (bA + c.2)) == some []) = none →
        placementSpec d corners aA bA aT bT color = d) := by
  refine ⟨tryPlace_eq_placementSpec d corners aA bA aT bT color hpres hcen, ?_⟩
  intro hnone
  simp [placementSpec, hnone]

/-- Witness for C4 on the freshly initialized 1x1 grid. -/
theorem c4_placement_first_empty_corner_witness :
    corner_options.Perm corner_options ∧
      (tryPlace (initGrid 1 1) corner_options 0 0 0 0 "blue"
          = some (placementSpec (initGrid 1 1) corner_options 0 0 0 0 "blue") ∧
        (corner_options.find?
            (fun c => findVal (initGrid 1 1) (cornerKey (0 + c.1) (0 + c.2)) == some []) = none →
          placementSpec (initGrid 1 1) corner_options 0 0 0 0 "blue" = initGrid 1 1)) :=
  ⟨List.Perm.refl _,
   c4_placement_first_empty_corner (initGrid 1 1) corner_options 0 0 0 0 "blue"
     (List.Perm.refl _) (by decide) (by decide)⟩

/-- C5: for positive dimensions and a positive artifact-count range, every
randint/shuffle-conformant random draw produces an environment that
`validate_environment` accepts: labels are appended in pairs, and the
first unit of the first color always finds an empty corner in the freshly
initialized grid, so both counts are equal and positive. -/
theorem c5_created_environment_validates
    (pg_row_num pg_column_num artifact_num_low artifact_num_high : Nat)
    (hr : 1 ≤ pg_row_num) (hc : 1 ≤ pg_column_num)
    (hlow : 1 ≤ artifact_num_low) (hlh : artifact_num_low ≤ artifact_num_high)
    (draws : List (List UnitDraw))
    (hd : DrawsValid pg_row_num pg_column_num artifact_num_low artifact_num_high draws) :
    ∃ env, create_environment pg_row_num pg_column_num artifact_num_low
        artifact_num_high draws = some env ∧ validate_environment env = true := by
  obtain ⟨env, henv, -, heq, hpos⟩ :=
    create_environment_sound _ _ _ _ hr hc draws hd
  exact ⟨env, henv, (validate_environment_iff env).mpr ⟨heq, hpos hlow⟩⟩

/-- Witness for C5 with concrete draws on the 1x1 grid. -/
theorem c5_created_environment_validates_witness :
    (1 ≤ 1 ∧ DrawsValid 1 1 1 1 (List.replicate 5 [⟨0, 0, corner_options⟩])) ∧
      ∃ env, create_environment 1 1 1 1 (List.replicate 5 [⟨0, 0, corner_options⟩])
          = some env ∧ validate_environment env = true :=
  ⟨⟨by decide, by decide⟩,
   c5_created_environment_validates 1 1 1 1 (by decide) (by decide) (by decide)
     (by decide) (List.replicate 5 [⟨0, 0, corner_options⟩]) (by decide)⟩

/-- C6: for every positive grid, the initialized dictionary has exactly
`rows*cols + (rows+1)*(cols+1)` entries with pairwise distinct key
strings (center and corner keys never collide), every key initially maps
to an empty sequence, and the placement loop never removes a key: any
`create_environment` run that returns a dictionary returns one with
exactly the initial key list. -/
theorem c6_grid_key_invariants (pg_row_num pg_column_num : Nat)
    (hr : 1 ≤ pg_row_num) (hc : 1 ≤ pg_column_num) :
    (keysOf (initGrid pg_row_num pg_column_num)).Nodup ∧
      (initGrid pg_row_num pg_column_num).length
        = pg_row_num * pg_column_num + (pg_row_num + 1) * (pg_column_num + 1) ∧
      (∀ kv ∈ initGrid pg_row_num pg_column_num, kv.2 = ([] : List String)) ∧
      ∀ (artifact_num_low artifact_num_high : Nat) (draws : List (List UnitDraw))
        (env : PgDict),
        create_environment pg_row_num pg_column_num artifact_num_low
            artifact_num_high draws = some env →
        keysOf env = keysOf (initGrid pg_row_num pg_column_num) :=
  ⟨initGrid_keys_nodup _ _, initGrid_length _ _, initGrid_values_empty _ _,
   fun low high draws env h => create_environment_keysOf _ _ low high draws env h⟩

/-- Witness for C6 on the 1x1 grid. -/
theorem c6_grid_key_invariants_witness :
    (1 ≤ 1) ∧ (keysOf (initGrid 1 1)).Nodup ∧ (initGrid 1 1).length = 1 * 1 + (1 + 1) * (1 + 1) :=
  ⟨by decide, (c6_grid_key_invariants 1 1 (by decide) (by decide)).1,
   (c6_grid_key_invariants 1 1 (by decide) (by decide)).2.1⟩

/-- C8: with positive dimensions and randint/shuffle-conformant draws the
synthesizer raises no exception: each drawn cell index decomposes by
integer division and modulo into in-range `(row, col)`, every key the
loop looks up is present, and `create_environment` returns a dictionary
(the `KeyError` outcome `none` is impossible). -/
theorem c8_create_environment_never_raises
    (pg_row_num pg_column_num artifact_num_low artifact_num_high : Nat)
    (hr : 0 < pg_row_num) (hc : 0 < pg_column_num)
    (hlow : 1 ≤ artifact_num_low) (hlh : artifact_num_low ≤ artifact_num_high)
    (draws : List (List UnitDraw))
    (hd : DrawsValid pg_row_num pg_column_num artifact_num_low artifact_num_high draws) :
    (∀ sq < pg_row_num * pg_column_num,
        sq / pg_column_num < pg_row_num ∧ sq % pg_column_num < pg_column_num) ∧
      ∃ env, create_environment pg_row_num pg_column_num artifact_num_low
          artifact_num_high draws = some env := by
  constructor
  · intro sq hsq
    constructor
    · rw [Nat.div_lt_iff_lt_mul hc]
      exact hsq
    · exact Nat.mod_lt _ hc
  · obtain ⟨env, henv, -, -, -⟩ := create_environment_sound _ _ _ _ hr hc draws hd
    exact ⟨env, henv⟩

/-- Witness for C8 with concrete draws on the 1x1 grid. -/
theorem c8_create_environment_never_raises_witness :
    (0 < 1 ∧ DrawsValid 1 1 1 1 (List.replicate 5 [⟨1 - 1, 0, corner_options⟩])) ∧
      ((∀ sq < 1 * 1, sq / 1 < 1 ∧ sq % 1 < 1) ∧
        ∃ env, create_environment 1 1 1 1 (List.replicate 5 [⟨1 - 1, 0, corner_options⟩])
            = some env) :=
  ⟨⟨by decide, by decide⟩,
   c8_create_environment_never_raises 1 1 1 1 (by decide) (by decide) (by decide)
     (by decide) (List.replicate 5 [⟨1 - 1, 0, corner_options⟩]) (by decide)⟩

lemma seqOps_eq_flatMap {α : Type} :
    ∀ (l : List α) (f : α → Option (List FsOp)) (g : α → List FsOp),
      (∀ x ∈ l, f x = some (g x)) → seqOps l f = some (l.flatMap g) := by
  intro l
  induction l with
  | nil => intro f g _; rfl
  | cons x xs ih =>
    intro f g h
    simp only [seqOps, h x (by simp), ih f g (fun y hy => h y (by simp [hy])),
      List.flatMap_cons]

lemma grid_sizes_pos : ∀ rc ∈ grid_sizes, 0 < rc.1 ∧ 0 < rc.2 := by decide

/-- C9: with randint/shuffle-conformant draws, the Suite Generator first
removes the existing tree at the base path (when present) and recreates
the base directory, then for each of the four fixed grid sizes and each
iteration in `[0, repeat_num)` invokes the Environment Synthesizer with
the default artifact range `[1,1]` and emits, in order, the iteration
directory creation, the document written at the deterministic path
`<base>/env_pg_state_<rows>_<cols>/pg_state<it>/pg_state<it>.json`, and
exactly one progress notification per environment. -/
theorem c9_suite_trace (base : String) (baseExists : Bool) (repeat_num : Nat)
    (o : Nat → Nat → Nat → List (List UnitDraw))
    (ho : ∀ rc ∈ grid_sizes, ∀ it < repeat_num, DrawsValid rc.1 rc.2 1 1 (o rc.1 rc.2 it)) :
    ∃ envs : Nat → Nat → Nat → PgDict,
      (∀ rc ∈ grid_sizes, ∀ it < repeat_num,
        create_environment rc.1 rc.2 1 1 (o rc.1 rc.2 it) = some (envs rc.1 rc.2 it)) ∧
      create_experiment_suite base baseExists repeat_num o
        = some ((if baseExists then [FsOp.rmtree base] else [])
            ++ FsOp.makedirs base
              :: grid_sizes.flatMap fun rc =>
                FsOp.makedirs (gridDirPath base rc.1 rc.2)
                  :: (List.range repeat_num).flatMap fun it =>
                    [FsOp.makedirs (iterationDirPath base rc.1 rc.2 it),
                     FsOp.writeFile (configFilePath base rc.1 rc.2 it) (envs rc.1 rc.2 it),
                     FsOp.printMsg (progressMsg rc.1 rc.2 it)]) := by
  refine ⟨fun r c i => (create_environment r c 1 1 (o r c i)).getD [], ?_, ?_⟩
  case _ =>
    intro rc hrc it hit
    obtain ⟨env, henv, -, -, -⟩ :=
      create_environment_sound rc.1 rc.2 1 1 (grid_sizes_pos rc hrc).1
        (grid_sizes_pos rc hrc).2 (o rc.1 rc.2 it) (ho rc hrc it hit)
    simp [henv]
  case _ =>
    have hsome : ∀ rc ∈ grid_sizes, ∀ it < repeat_num,
        create_environment rc.1 rc.2 1 1 (o rc.1 rc.2 it)
          = some ((create_environment rc.1 rc.2 1 1 (o rc.1 rc.2 it)).getD []) := by
      intro rc hrc it hit
      obtain ⟨env, henv, -, -, -⟩ :=
        create_environment_sound rc.1 rc.2 1 1 (grid_sizes_pos rc hrc).1
          (grid_sizes_pos rc hrc).2 (o rc.1 rc.2 it) (ho rc hrc it hit)
      rw [henv]
      rfl
    have houter : seqOps grid_sizes (fun rc =>
        match seqOps (List.range repeat_num)
            (fun iteration => envOps base rc.1 rc.2 iteration o) with
        | none => none
        | some t => some (FsOp.makedirs (gridDirPath base rc.1 rc.2) :: t))
        = some (grid_sizes.flatMap fun rc =>
            FsOp.makedirs (gridDirPath base rc.1 rc.2)
              :: (List.range repeat_num).flatMap fun it =>
                [FsOp.makedirs (iterationDirPath base rc.1 rc.2 it),
                 FsOp.writeFile (configFilePath base rc.1 rc.2 it)
                   ((create_environment rc.1 rc.2 1 1 (o rc.1 rc.2 it)).getD []),
                 FsOp.printMsg (progressMsg rc.1 rc.2 it)]) := by
      apply seqOps_eq_flatMap
      intro rc hrc
      have hinner : seqOps (List.range repeat_num)
          (fun iteration => envOps base rc.1 rc.2 iteration o)
          = some ((List.range repeat_num).flatMap fun it =>
              [FsOp.makedirs (iterationDirPath base rc.1 rc.2 it),
               FsOp.writeFile (configFilePath base rc.1 rc.2 it)
                 ((create_environment rc.1 rc.2 1 1 (o rc.1 rc.2 it)).getD []),
               FsOp.printMsg (progressMsg rc.1 rc.2 it)]) := by
        apply seqOps_eq_flatMap
        intro it hit
        unfold envOps
        rw [hsome rc hrc it (List.mem_range.mp hit)]
        rfl
      rw [hinner]
    unfold create_experiment_suite
    rw [houter]

/-- Witness for C9 at a concrete base path, one repetition and concrete
draws. -/
theorem c9_suite_trace_witness :
    (∀ rc ∈ grid_sizes, ∀ it < 1, DrawsValid rc.1 rc.2 1 1
        ((fun _ _ _ => List.replicate 5 [⟨0, 0, corner_options⟩]) rc.1 rc.2 it)) ∧
      ∃ t, create_experiment_suite "/envs" true 1
          (fun _ _ _ => List.replicate 5 [⟨0, 0, corner_options⟩]) = some t := by
  refine ⟨by decide, ?_⟩
  obtain ⟨envs, -, htrace⟩ := c9_suite_trace "/envs" true 1
    (fun _ _ _ => List.replicate 5 [⟨0, 0, corner_options⟩]) (by decide)
  exact ⟨_, htrace⟩

lemma string_append_assoc (a b c : String) : a ++ b ++ c = a ++ (b ++ c) := by
  apply String.ext
  simp only [string_data_append, List.append_assoc]

lemma string_append_empty (a : String) : a ++ "" = a := by
  apply String.ext
  simp only [string_data_append, show ("" : String).data = [] from rfl, List.append_nil]

lemma foldl_append_eq_strConcat {α : Type} (f : α → String) :
    ∀ (l : List α) (init : String),
      l.foldl (fun acc x => acc ++ f x) init = init ++ strConcat (l.map f) := by
  intro l
  induction l with
  | nil =>
    intro init
    simp only [List.foldl_nil, List.map_nil, strConcat]
    exact (string_append_empty init).symm
  | cons x xs ih =>
    intro init
    rw [List.foldl_cons, ih, List.map_cons,
      show strConcat (f x :: xs.map f) = f x ++ strConcat (xs.map f) from rfl]
    exact string_append_assoc init (f x) (strConcat (xs.map f))

lemma reportSection_eq (grid_size : String) (grid_results : List (String × AggStats)) :
    reportSection grid_size grid_results
      = "## Grid Size: " ++ grid_size ++ "\n\n" ++ table_header ++ table_separator
          ++ strConcat (grid_results.map fun cm => reportRow cm.1 cm.2) ++ "\n" :=
  congrArg (fun s => s ++ "\n")
    (foldl_append_eq_strConcat (fun cm => reportRow cm.1 cm.2) grid_results
      ("## Grid Size: " ++ grid_size ++ "\n\n" ++ table_header ++ table_separator))

lemma generate_comparison_report_eq (fs : FS) (data_dir : String) :
    generate_comparison_report fs data_dir = reportSpec (analyze_results fs data_dir) := by
  have hsec : (fun (g : String × List (String × AggStats)) => reportSection g.1 g.2)
      = fun g => "## Grid Size: " ++ g.1 ++ "\n\n" ++ table_header ++ table_separator
          ++ strConcat (g.2.map fun cm => reportRow cm.1 cm.2) ++ "\n" := by
    funext g
    exact reportSection_eq g.1 g.2
  have h := foldl_append_eq_strConcat (fun (g : String × List (String × AggStats)) =>
    reportSection g.1 g.2) (analyze_results fs data_dir) header_line
  rw [hsec] at h
  exact h

lemma roundHalfEven_intCast (m : ℤ) : roundHalfEven (m : ℚ) = m := by
  unfold roundHalfEven
  rw [Int.floor_intCast]
  norm_num

/-- C10: the rendered report equals the specification (header, then
sections in the fixed grid-size list order, each with rows in the fixed
configuration order); section keys are exactly `2x2, 2x4, 4x4, 4x8` in
that order; row keys are exactly the six configuration keys in candidate
order; a success rate of `0.5` renders as `50.00%`, action time and API
queries with one decimal digit, token usage as an integer; and the fixed
row order is not lexicographically sorted order. -/
theorem c10_report_rendering (fs : FS) (data_dir : String) :
    generate_comparison_report fs data_dir = reportSpec (analyze_results fs data_dir) ∧
      (analyze_results fs data_dir).map Prod.fst = ["2x2", "2x4", "4x4", "4x8"] ∧
      (∀ g ∈ analyze_results fs data_dir,
        g.2.map Prod.fst = candidate_list.map fun fd => fd.1 ++ fd.2) ∧
      pctFormat (1/2) = "50.00%" ∧
      fixedFormat 1 5 = "5.0" ∧
      intFormat 30 = "30" ∧
      ((candidate_list.map fun fd => fd.1 ++ fd.2).take 2
          = ["CMAS_wo_any_dialogue_history", "CMAS_w_only_state_action_history"] ∧
        "CMAS_wo_any_dialogue_history".data.take 6
          = "CMAS_w_only_state_action_history".data.take 6 ∧
        ("CMAS_wo_any_dialogue_history".data.drop 6).head? = some 'o' ∧
        ("CMAS_w_only_state_action_history".data.drop 6).head? = some '_' ∧
        '_' < 'o') := by
  refine ⟨generate_comparison_report_eq fs data_dir, ?_, ?_, ?_, ?_, ?_, ?_⟩
  · simp only [analyze_results, grid_sizes, List.map_cons, List.map_nil]
    decide
  · intro g hg
    simp only [analyze_results, grid_sizes, List.map_cons, List.map_nil,
      List.mem_cons, List.not_mem_nil, or_false] at hg
    rcases hg with rfl | rfl | rfl | rfl <;>
      simp [_analyze_grid_size, List.map_map, Function.comp_def]
  · unfold pctFormat
    rw [show fixedFormat 2 ((1/2 : ℚ) * 100) = "50.00" from by
      unfold fixedFormat
      rw [show ((1/2 : ℚ) * 100 * 10 ^ 2) = ((5000 : ℤ) : ℚ) by norm_num,
        roundHalfEven_intCast]
      rfl]
    rfl
  · unfold fixedFormat
    rw [show ((5 : ℚ) * 10 ^ 1) = ((50 : ℤ) : ℚ) by norm_num, roundHalfEven_intCast]
    rfl
  · unfold intFormat
    rw [show (30 : ℚ) = ((30 : ℤ) : ℚ) by norm_num, roundHalfEven_intCast]
    rfl
  · decide

/-- Witness for C10 on the empty filesystem. -/
theorem c10_report_rendering_witness :
    generate_comparison_report (fun _ => none) "/data"
      = reportSpec (analyze_results (fun _ => none) "/data") :=
  (c10_report_rendering (fun _ => none) "/data").1

/-- Witness for C7's success-counting conjunct at a concrete accumulator
and run record. -/
theorem c7_single_success_metrics_witness :
    (⟨some "failure", none, none⟩ : RunData).statusLine = some "failure" ∧
      (stepIteration ⟨0, 0, 0, 0, 0⟩ (some ⟨some "failure", none, none⟩)).success_count
        = (⟨0, 0, 0, 0, 0⟩ : AggAcc).success_count
            + (if "failure" = "success" then 1 else 0) :=
  ⟨rfl, c7_single_success_metrics.2 ⟨0, 0, 0, 0, 0⟩ ⟨some "failure", none, none⟩
    "failure" rfl⟩
